import Mathlib

/-!
Shallow embedding of the Thessaloniki RecycleFinder interaction controller
(the HomePage component), the map-surface coordinate transform (RecyclingMap)
and the Firestore service mapping layer, together with theorems settling the
frozen claims about the specification.

Numbers that are JavaScript floats in the source (map coordinates, the zoom
scale) are embedded as rationals; ids and category ids are strings.  The
external store is embedded by passing each handler the outcome of its store
operation (success or failure, and the generated id for an insert) and by
having each handler return the list of store calls it issued.
-/

namespace RecycleFinder

/-- A recycling point, as in src/types/index.ts: id, name, category id,
map coordinates in percent, and a description. -/
structure RecyclingPoint where
  id : String
  name : String
  category : String
  x : ℚ
  y : ℚ
  description : String
deriving DecidableEq, Repr

/-- A partial field update sent to the store, mirroring the objects passed
to updateRecyclingPointInDB by the four field-edit handlers. -/
inductive FieldUpdate where
  | coords (x y : ℚ)
  | category (c : String)
  | name (n : String)
  | description (d : String)
deriving DecidableEq, Repr

/-- A store operation issued by a handler, mirroring the calls to
addRecyclingPointToDB, updateRecyclingPointInDB and deleteRecyclingPointFromDB. -/
inductive StoreCall where
  | insert (name category : String) (x y : ℚ) (description : String)
  | update (pointId : String) (u : FieldUpdate)
  | delete (pointId : String)
deriving DecidableEq, Repr

/-- The controller state of the HomePage component: the local point list and
the selection, editing and placement flags (src/app page component). -/
structure HomeState where
  allPoints : List RecyclingPoint
  selectedCategories : List String
  selectedPoint : Option RecyclingPoint
  editingPointId : Option String
  isSelectingLocation : Bool
  isAddingNewPointMode : Bool
  categoryForNewPoint : String
deriving DecidableEq, Repr

/-- Lookup of a point by id in the local list, as allPoints.find(p => p.id === pointId). -/
def findPoint (pts : List RecyclingPoint) (pointId : String) : Option RecyclingPoint :=
  pts.find? (fun p => p.id == pointId)

/-- handleCloseDialog: reset selection, editing and location-selection state. -/
def handleCloseDialog (s : HomeState) : HomeState :=
  { s with selectedPoint := none, editingPointId := none, isSelectingLocation := false }

/-- handleCategoryChange: add the toggled category id at the end when checked,
remove every occurrence when unchecked. -/
def handleCategoryChange (s : HomeState) (categoryId : String) (checked : Bool) : HomeState :=
  { s with selectedCategories :=
      if checked then s.selectedCategories ++ [categoryId]
      else s.selectedCategories.filter (fun cid => cid != categoryId) }

/-- The guard of the third branch of handlePointSelect: some other point is
being edited and the controller is not selecting a location. -/
def editingOtherPoint (s : HomeState) (point : RecyclingPoint) : Bool :=
  match s.editingPointId with
  | some eid => eid != point.id && !s.isSelectingLocation
  | none => false

/-- handlePointSelect: select the clicked point unless a placement mode is
active or another point is being edited (those branches only toast). -/
def handlePointSelect (s : HomeState) (point : RecyclingPoint) : HomeState :=
  if s.isAddingNewPointMode then s
  else if s.isSelectingLocation then s
  else if editingOtherPoint s point then s
  else { s with selectedPoint := some point }

/-- filteredPoints: the memoized projection of the local point list through
the selected category ids, empty when no category is selected. -/
def filteredPoints (s : HomeState) : List RecyclingPoint :=
  if s.selectedCategories.length = 0 then []
  else s.allPoints.filter (fun point => s.selectedCategories.contains point.category)

/-- handleToggleEditMode: leave add-point mode, then toggle or switch the
editing subject as in the source (the source first sets the add-point flag
to false; the branch conditions read only fields that this leaves intact). -/
def handleToggleEditMode (s : HomeState) (pointIdToToggle : Option String) : HomeState :=
  if s.editingPointId = pointIdToToggle ∧ s.isSelectingLocation = false then
    { s with isAddingNewPointMode := false, editingPointId := none }
  else
    match pointIdToToggle with
    | none =>
        { s with isAddingNewPointMode := false, editingPointId := none,
                 isSelectingLocation := false }
    | some pid =>
        { s with isAddingNewPointMode := false, editingPointId := some pid,
                 isSelectingLocation := false,
                 selectedPoint := findPoint s.allPoints pid }

/-- handleChangeLocationStart: when a point is being edited, start selecting
a new location for it on the map. -/
def handleChangeLocationStart (s : HomeState) : HomeState :=
  match s.editingPointId with
  | some _ => { s with isSelectingLocation := true }
  | none => s

/-- handlePointCoordinateChange: update a point with new coordinates.  The
parameter ok is the outcome of the store update.  On success the local list,
the selected point and the flags are updated; on failure the selected point
is reset to the original point data and location selection is exited. -/
def handlePointCoordinateChange (s : HomeState) (pointId : String) (newX newY : ℚ)
    (ok : Bool) : HomeState × List StoreCall :=
  match findPoint s.allPoints pointId with
  | none => (s, [])
  | some pointToUpdate =>
      let updatedPointData := { pointToUpdate with x := newX, y := newY }
      let call := StoreCall.update pointId (FieldUpdate.coords newX newY)
      if ok then
        ({ s with
            allPoints := s.allPoints.map (fun p => if p.id == pointId then updatedPointData else p),
            selectedPoint := some updatedPointData,
            editingPointId := some pointId,
            isSelectingLocation := false }, [call])
      else
        ({ s with
            isSelectingLocation := false,
            selectedPoint := some pointToUpdate,
            editingPointId := some pointId }, [call])

/-- handlePointCategoryChange: update the category of a point.  The local
list and the dialog are only updated when the store update succeeds. -/
def handlePointCategoryChange (s : HomeState) (pointId newCategoryId : String)
    (ok : Bool) : HomeState × List StoreCall :=
  match findPoint s.allPoints pointId with
  | none => (s, [])
  | some pointToUpdate =>
      let updatedPointData := { pointToUpdate with category := newCategoryId }
      let call := StoreCall.update pointId (FieldUpdate.category newCategoryId)
      if ok then
        ({ s with
            allPoints := s.allPoints.map (fun p => if p.id == pointId then updatedPointData else p),
            selectedPoint :=
              match s.selectedPoint with
              | some sp => if sp.id == pointId then some updatedPointData else some sp
              | none => none }, [call])
      else (s, [call])

/-- handlePointNameChange: update the name of a point.  The local list and
the dialog are only updated when the store update succeeds. -/
def handlePointNameChange (s : HomeState) (pointId newName : String)
    (ok : Bool) : HomeState × List StoreCall :=
  match findPoint s.allPoints pointId with
  | none => (s, [])
  | some pointToUpdate =>
      let updatedNameData := { pointToUpdate with name := newName }
      let call := StoreCall.update pointId (FieldUpdate.name newName)
      if ok then
        ({ s with
            allPoints := s.allPoints.map (fun p => if p.id == pointId then updatedNameData else p),
            selectedPoint :=
              match s.selectedPoint with
              | some sp => if sp.id == pointId then some updatedNameData else some sp
              | none => none }, [call])
      else (s, [call])

/-- handlePointDescriptionChange: update the description of a point.  The
local list and the dialog are only updated when the store update succeeds. -/
def handlePointDescriptionChange (s : HomeState) (pointId newDescription : String)
    (ok : Bool) : HomeState × List StoreCall :=
  match findPoint s.allPoints pointId with
  | none => (s, [])
  | some pointToUpdate =>
      let updatedDescriptionData := { pointToUpdate with description := newDescription }
      let call := StoreCall.update pointId (FieldUpdate.description newDescription)
      if ok then
        ({ s with
            allPoints := s.allPoints.map
              (fun p => if p.id == pointId then updatedDescriptionData else p),
            selectedPoint :=
              match s.selectedPoint with
              | some sp => if sp.id == pointId then some updatedDescriptionData else some sp
              | none => none }, [call])
      else (s, [call])

/-- handleInitiateAddPoint: enter add-point mode when a category has been
chosen, clearing location selection, editing and the dialog selection;
with an empty category the action is rejected and nothing changes. -/
def handleInitiateAddPoint (s : HomeState) : HomeState :=
  if s.categoryForNewPoint = "" then s
  else
    { s with isAddingNewPointMode := true, isSelectingLocation := false,
             editingPointId := none, selectedPoint := none }

/-- handlePlaceNewPoint: insert a new point at the clicked coordinates.  The
parameter result is none when the store insert fails and carries the
store-generated id on success. -/
def handlePlaceNewPoint (s : HomeState) (newX newY : ℚ)
    (result : Option String) : HomeState × List StoreCall :=
  if s.isAddingNewPointMode = false ∨ s.categoryForNewPoint = "" then (s, [])
  else
    let call := StoreCall.insert "New Recycling Point" s.categoryForNewPoint newX newY ""
    match result with
    | some newId =>
        let addedPointWithId : RecyclingPoint :=
          { id := newId, name := "New Recycling Point", category := s.categoryForNewPoint,
            x := newX, y := newY, description := "" }
        ({ s with
            allPoints := s.allPoints ++ [addedPointWithId],
            selectedPoint := some addedPointWithId,
            editingPointId := some newId,
            isAddingNewPointMode := false,
            categoryForNewPoint := "" }, [call])
    | none =>
        ({ s with isAddingNewPointMode := false, categoryForNewPoint := "" }, [call])

/-- handleDeletePoint: delete a point.  The local list is filtered and the
dialog closed only when the store delete succeeds; on failure nothing in the
controller state changes. -/
def handleDeletePoint (s : HomeState) (pointId : String)
    (ok : Bool) : HomeState × List StoreCall :=
  match findPoint s.allPoints pointId with
  | none => (s, [])
  | some _ =>
      let call := StoreCall.delete pointId
      if ok then
        (handleCloseDialog
          { s with allPoints := s.allPoints.filter (fun p => p.id != pointId) }, [call])
      else (s, [call])

/-- The Escape key handler: priority-ordered cancellation of add-point mode,
then of location selection (restoring the dialog to the edited point), then
closing of a dialog that is only viewing a point. -/
def handleEscape (s : HomeState) : HomeState :=
  if s.isAddingNewPointMode then
    { s with isAddingNewPointMode := false, categoryForNewPoint := "" }
  else if s.isSelectingLocation then
    match s.editingPointId with
    | some eid =>
        { s with isSelectingLocation := false, selectedPoint := findPoint s.allPoints eid }
    | none => { s with isSelectingLocation := false }
  else if s.selectedPoint.isSome && s.editingPointId.isNone then
    handleCloseDialog s
  else s

/-- Intrinsic map image width in pixels (RecyclingMap). -/
def imageWidth : ℚ := 2000

/-- Intrinsic map image height in pixels (RecyclingMap). -/
def imageHeight : ℚ := 1500

/-- The map-click coordinate transform of RecyclingMap.handleMapClick:
pointer offset from the image origin, divided by the scaled intrinsic size,
times 100, clamped into the range from 0 to 100 in each axis. -/
def mapClickPercent (clientX clientY rectLeft rectTop currentScale : ℚ) : ℚ × ℚ :=
  let xOnImage := clientX - rectLeft
  let yOnImage := clientY - rectTop
  let newXPercent := xOnImage / (imageWidth * currentScale) * 100
  let newYPercent := yOnImage / (imageHeight * currentScale) * 100
  (max 0 (min 100 newXPercent), max 0 (min 100 newYPercent))

/-- RecyclingMap.handleMapClick composed with the HomePage callbacks: in
add-point mode the click places the new point, while editing with location
selection active it commits the new coordinates for the edited point. -/
def handleMapClick (s : HomeState) (clientX clientY rectLeft rectTop currentScale : ℚ)
    (result : Option String) (ok : Bool) : HomeState × List StoreCall :=
  let newXPercent := (mapClickPercent clientX clientY rectLeft rectTop currentScale).1
  let newYPercent := (mapClickPercent clientX clientY rectLeft rectTop currentScale).2
  if s.isAddingNewPointMode then
    handlePlaceNewPoint s newXPercent newYPercent result
  else
    match s.editingPointId with
    | some eid =>
        if s.isSelectingLocation then
          handlePointCoordinateChange s eid newXPercent newYPercent ok
        else (s, [])
    | none => (s, [])

/-- The user and store events that drive the controller state. -/
inductive Event where
  | closeDialog
  | categoryChange (categoryId : String) (checked : Bool)
  | pointSelect (point : RecyclingPoint)
  | toggleEditMode (pointIdToToggle : Option String)
  | changeLocationStart
  | pointCategoryChange (pointId newCategoryId : String) (ok : Bool)
  | pointNameChange (pointId newName : String) (ok : Bool)
  | pointDescriptionChange (pointId newDescription : String) (ok : Bool)
  | deletePoint (pointId : String) (ok : Bool)
  | mapClick (clientX clientY rectLeft rectTop currentScale : ℚ)
      (result : Option String) (ok : Bool)
  | escapeKey
  | setCategoryForNewPoint (c : String)
  | initiateAddPoint

/-- One controller transition per event, dispatching to the handlers. -/
def step (s : HomeState) (e : Event) : HomeState :=
  match e with
  | .closeDialog => handleCloseDialog s
  | .categoryChange cid chk => handleCategoryChange s cid chk
  | .pointSelect p => handlePointSelect s p
  | .toggleEditMode pid => handleToggleEditMode s pid
  | .changeLocationStart => handleChangeLocationStart s
  | .pointCategoryChange pid c ok => (handlePointCategoryChange s pid c ok).1
  | .pointNameChange pid n ok => (handlePointNameChange s pid n ok).1
  | .pointDescriptionChange pid d ok => (handlePointDescriptionChange s pid d ok).1
  | .deletePoint pid ok => (handleDeletePoint s pid ok).1
  | .mapClick cx cy rl rt sc result ok => (handleMapClick s cx cy rl rt sc result ok).1
  | .escapeKey => handleEscape s
  | .setCategoryForNewPoint c => { s with categoryForNewPoint := c }
  | .initiateAddPoint => handleInitiateAddPoint s

/-- The state after the mount effect: points fetched from the store, all
initial category ids selected, no selection and no active mode. -/
def initialState (pointsFromDB : List RecyclingPoint) (initialCategoryIds : List String) :
    HomeState :=
  { allPoints := pointsFromDB
    selectedCategories := initialCategoryIds
    selectedPoint := none
    editingPointId := none
    isSelectingLocation := false
    isAddingNewPointMode := false
    categoryForNewPoint := "" }

/-- Reachability of a controller state from some mount state by events. -/
inductive Reachable : HomeState → Prop where
  | init (pts : List RecyclingPoint) (cats : List String) : Reachable (initialState pts cats)
  | next (s : HomeState) (e : Event) : Reachable s → Reachable (step s e)

/-- The inductive placement invariant: while add-point mode is active, no
location is being selected and no point is being edited. -/
def PlacementInv (s : HomeState) : Prop :=
  s.isAddingNewPointMode = true → s.isSelectingLocation = false ∧ s.editingPointId = none

/-- A Firestore document field holding the map coordinate of a point: either
a number or a non-numeric value (a string, or absent).  The service reads it
with a typeof check, so only numberhood matters. -/
inductive FireValue where
  | str (s : String)
  | num (q : ℚ)
  | missing
deriving DecidableEq, Repr

/-- A Firestore document of the recyclingPoints collection as read by the
service.  String-typed fields are modeled as a present string or a missing
field; the coordinate fields carry a FireValue so that non-numeric stored
values are representable. -/
structure FireDoc where
  id : String
  name : Option String
  category : Option String
  x : FireValue
  y : FireValue
  description : Option String
deriving DecidableEq, Repr

/-- The JavaScript or-default idiom over a string field: the stored value
when present and truthy (non-empty), the default otherwise. -/
def jsStringOr (v : Option String) (dflt : String) : String :=
  match v with
  | some s => if s = "" then dflt else s
  | none => dflt

/-- The typeof number check of the service: a numeric stored value is
returned as-is, anything else becomes 0. -/
def jsNumberOrZero (v : FireValue) : ℚ :=
  match v with
  | .num q => q
  | _ => 0

/-- mapDocToRecyclingPoint from recyclingPointsService: normalize a raw
document into a RecyclingPoint with defaults for missing or falsy fields. -/
def mapDocToRecyclingPoint (docSnap : FireDoc) : RecyclingPoint :=
  { id := docSnap.id
    name := jsStringOr docSnap.name "Unnamed Point"
    category := jsStringOr docSnap.category "unknown"
    x := jsNumberOrZero docSnap.x
    y := jsNumberOrZero docSnap.y
    description := jsStringOr docSnap.description "" }

/-- getRecyclingPointsFromDB on a successful fetch: map every document of
the collection through mapDocToRecyclingPoint. -/
def getRecyclingPointsFromDB (docs : List FireDoc) : List RecyclingPoint :=
  docs.map mapDocToRecyclingPoint

/-- A concrete point used by the witnesses and counterexamples. -/
def pt1 : RecyclingPoint :=
  { id := "p1", name := "Old Name", category := "glass", x := 10, y := 20, description := "d" }

/-- A concrete state in Editing mode on pt1. -/
def sEdit : HomeState :=
  { allPoints := [pt1], selectedCategories := ["glass"], selectedPoint := some pt1,
    editingPointId := some "p1", isSelectingLocation := false,
    isAddingNewPointMode := false, categoryForNewPoint := "" }

/-- A concrete state in RelocatingPoint mode on pt1. -/
def sRel : HomeState :=
  { allPoints := [pt1], selectedCategories := ["glass"], selectedPoint := some pt1,
    editingPointId := some "p1", isSelectingLocation := true,
    isAddingNewPointMode := false, categoryForNewPoint := "" }

/-- A concrete state in AddingNewPoint mode with the glass category chosen. -/
def sAdd : HomeState :=
  { allPoints := [pt1], selectedCategories := ["glass"], selectedPoint := none,
    editingPointId := none, isSelectingLocation := false,
    isAddingNewPointMode := true, categoryForNewPoint := "glass" }

/-- A concrete state in Viewing mode on pt1. -/
def sView : HomeState :=
  { allPoints := [pt1], selectedCategories := ["glass"], selectedPoint := some pt1,
    editingPointId := none, isSelectingLocation := false,
    isAddingNewPointMode := false, categoryForNewPoint := "" }

/-- A concrete document with every field missing, for the witnesses. -/
def docEmpty : FireDoc :=
  { id := "d0", name := none, category := none,
    x := FireValue.missing, y := FireValue.missing, description := none }

/-- Closing the dialog preserves the placement invariant. -/
theorem placementInv_closeDialog (s : HomeState) :
    PlacementInv (handleCloseDialog s) := fun _ => ⟨rfl, rfl⟩

/-- Selecting a point preserves the placement invariant. -/
theorem placementInv_pointSelect (s : HomeState) (p : RecyclingPoint)
    (h : PlacementInv s) : PlacementInv (handlePointSelect s p) := by
  unfold PlacementInv handlePointSelect
  split
  · exact h
  · split
    · exact h
    · split
      · exact h
      · intro hA; exact h hA

/-- Toggling edit mode preserves the placement invariant. -/
theorem placementInv_toggleEditMode (s : HomeState) (pid : Option String) :
    PlacementInv (handleToggleEditMode s pid) := by
  unfold PlacementInv handleToggleEditMode
  split
  · intro hA; simp at hA
  · cases pid with
    | none => intro hA; simp at hA
    | some pid2 => intro hA; simp at hA

/-- Starting a location change preserves the placement invariant. -/
theorem placementInv_changeLocationStart (s : HomeState)
    (h : PlacementInv s) : PlacementInv (handleChangeLocationStart s) := by
  unfold PlacementInv handleChangeLocationStart
  cases heid : s.editingPointId with
  | none => exact h
  | some eid =>
      intro hA
      have hnone := (h hA).2
      rw [heid] at hnone
      simp at hnone

/-- A category edit preserves the placement invariant. -/
theorem placementInv_pointCategoryChange (s : HomeState) (pid c : String) (ok : Bool)
    (h : PlacementInv s) : PlacementInv (handlePointCategoryChange s pid c ok).1 := by
  unfold PlacementInv handlePointCategoryChange
  cases hf : findPoint s.allPoints pid with
  | none => exact h
  | some pt =>
      dsimp only
      split
      · intro hA; exact h hA
      · exact h

/-- A name edit preserves the placement invariant. -/
theorem placementInv_pointNameChange (s : HomeState) (pid n : String) (ok : Bool)
    (h : PlacementInv s) : PlacementInv (handlePointNameChange s pid n ok).1 := by
  unfold PlacementInv handlePointNameChange
  cases hf : findPoint s.allPoints pid with
  | none => exact h
  | some pt =>
      dsimp only
      split
      · intro hA; exact h hA
      · exact h

/-- A description edit preserves the placement invariant. -/
theorem placementInv_pointDescriptionChange (s : HomeState) (pid d : String) (ok : Bool)
    (h : PlacementInv s) : PlacementInv (handlePointDescriptionChange s pid d ok).1 := by
  unfold PlacementInv handlePointDescriptionChange
  cases hf : findPoint s.allPoints pid with
  | none => exact h
  | some pt =>
      dsimp only
      split
      · intro hA; exact h hA
      · exact h

/-- A deletion preserves the placement invariant. -/
theorem placementInv_deletePoint (s : HomeState) (pid : String) (ok : Bool)
    (h : PlacementInv s) : PlacementInv (handleDeletePoint s pid ok).1 := by
  unfold PlacementInv handleDeletePoint
  cases hf : findPoint s.allPoints pid with
  | none => exact h
  | some pt =>
      dsimp only
      split
      · intro _; exact ⟨rfl, rfl⟩
      · exact h

/-- Placing a new point preserves the placement invariant. -/
theorem placementInv_placeNewPoint (s : HomeState) (nx ny : ℚ) (result : Option String)
    (h : PlacementInv s) : PlacementInv (handlePlaceNewPoint s nx ny result).1 := by
  unfold PlacementInv handlePlaceNewPoint
  split
  · exact h
  · cases result with
    | some newId => dsimp only; intro hA; simp at hA
    | none => dsimp only; intro hA; simp at hA

/-- A coordinate change never touches the add-point flag. -/
theorem coordChange_adding (s : HomeState) (pid : String) (nx ny : ℚ) (ok : Bool) :
    (handlePointCoordinateChange s pid nx ny ok).1.isAddingNewPointMode
      = s.isAddingNewPointMode := by
  unfold handlePointCoordinateChange
  split
  · rfl
  · dsimp only
    split <;> rfl

/-- A map click preserves the placement invariant. -/
theorem placementInv_mapClick (s : HomeState) (cx cy rl rt sc : ℚ)
    (result : Option String) (ok : Bool)
    (h : PlacementInv s) : PlacementInv (handleMapClick s cx cy rl rt sc result ok).1 := by
  unfold handleMapClick
  dsimp only
  split
  next hAdd => exact placementInv_placeNewPoint s _ _ result h
  next hAdd =>
    split
    next eid heq =>
      split
      · intro hA
        rw [coordChange_adding] at hA
        exact absurd hA hAdd
      · exact h
    next heq => exact h

/-- The Escape key preserves the placement invariant. -/
theorem placementInv_escape (s : HomeState)
    (h : PlacementInv s) : PlacementInv (handleEscape s) := by
  unfold PlacementInv handleEscape
  split
  · intro hA; simp at hA
  · split
    · cases heid : s.editingPointId with
      | none => intro hA; exact ⟨rfl, rfl⟩
      | some eid =>
          intro hA
          have h2 := (h hA).2
          rw [heid] at h2
          simp at h2
    · split
      · intro _; exact ⟨rfl, rfl⟩
      · exact h

/-- Entering add-point mode preserves the placement invariant. -/
theorem placementInv_initiateAddPoint (s : HomeState)
    (h : PlacementInv s) : PlacementInv (handleInitiateAddPoint s) := by
  unfold PlacementInv handleInitiateAddPoint
  split
  · exact h
  · intro _; exact ⟨rfl, rfl⟩

/-- Every controller transition preserves the placement invariant. -/
theorem placementInv_step (s : HomeState) (e : Event) (h : PlacementInv s) :
    PlacementInv (step s e) := by
  cases e with
  | closeDialog => exact placementInv_closeDialog s
  | categoryChange cid chk => exact fun hA => h hA
  | pointSelect p => exact placementInv_pointSelect s p h
  | toggleEditMode pid => exact placementInv_toggleEditMode s pid
  | changeLocationStart => exact placementInv_changeLocationStart s h
  | pointCategoryChange pid c ok => exact placementInv_pointCategoryChange s pid c ok h
  | pointNameChange pid n ok => exact placementInv_pointNameChange s pid n ok h
  | pointDescriptionChange pid d ok => exact placementInv_pointDescriptionChange s pid d ok h
  | deletePoint pid ok => exact placementInv_deletePoint s pid ok h
  | mapClick cx cy rl rt sc result ok => exact placementInv_mapClick s cx cy rl rt sc result ok h
  | escapeKey => exact placementInv_escape s h
  | setCategoryForNewPoint c => exact fun hA => h hA
  | initiateAddPoint => exact placementInv_initiateAddPoint s h

/-- The placement invariant holds in every reachable controller state. -/
theorem placementInv_of_reachable (s : HomeState) (h : Reachable s) : PlacementInv s := by
  induction h with
  | init pts cats => intro hA; exact absurd hA (by simp [initialState])
  | next s e _ ih => exact placementInv_step s e ih

/-- C1: entering AddingNewPoint clears the relocation flags, entering
RelocatingPoint happens only with the add-point flag already clear, and in
every reachable controller state the two placement-mode flags are never
both true. -/
theorem placement_modes_mutually_exclusive (s : HomeState) (h : Reachable s) :
    (¬ (s.isAddingNewPointMode = true ∧ s.isSelectingLocation = true)) ∧
    ((handleInitiateAddPoint s).isAddingNewPointMode = true →
      (handleInitiateAddPoint s).isSelectingLocation = false ∧
      (handleInitiateAddPoint s).editingPointId = none) ∧
    ((handleChangeLocationStart s).isSelectingLocation = true →
      (handleChangeLocationStart s).isAddingNewPointMode = false) := by
  have hinv := placementInv_of_reachable s h
  refine ⟨?_, ?_, ?_⟩
  · rintro ⟨hA, hS⟩
    have hS0 := (hinv hA).1
    rw [hS0] at hS
    exact Bool.false_ne_true hS
  · unfold handleInitiateAddPoint
    split
    · intro hA
      exact ⟨(hinv hA).1, (hinv hA).2⟩
    · intro _
      exact ⟨rfl, rfl⟩
  · unfold handleChangeLocationStart
    cases heid : s.editingPointId with
    | none =>
        intro hS
        cases hAeq : s.isAddingNewPointMode with
        | false => rfl
        | true =>
            have hS0 := (hinv hAeq).1
            rw [hS0] at hS
            exact absurd hS Bool.false_ne_true
    | some eid =>
        intro _
        cases hAeq : s.isAddingNewPointMode with
        | false => rfl
        | true =>
            have h2 := (hinv hAeq).2
            rw [heid] at h2
            simp at h2

/-- C1 witness: the invariant instantiated at a concrete reachable state. -/
theorem placement_modes_mutually_exclusive_witness :
    ¬ ((initialState [pt1] ["glass"]).isAddingNewPointMode = true ∧
       (initialState [pt1] ["glass"]).isSelectingLocation = true) :=
  (placement_modes_mutually_exclusive (initialState [pt1] ["glass"])
    (Reachable.init [pt1] ["glass"])).1

/-- Updating the point with a given id in a list rewrites what a lookup of
that id finds to the updated point. -/
theorem findPoint_map_update (l : List RecyclingPoint) (pid : String)
    (P upd : RecyclingPoint) (hupd : upd.id = pid)
    (hfind : l.find? (fun p => p.id == pid) = some P) :
    (l.map (fun p => if p.id == pid then upd else p)).find? (fun p => p.id == pid)
      = some upd := by
  induction l with
  | nil => simp at hfind
  | cons a t ih =>
      simp only [List.map]
      cases hb : (a.id == pid) with
      | true => simp [List.find?, hupd]
      | false =>
          have hfind2 : List.find? (fun p => p.id == pid) t = some P := by
            simpa [List.find?, hb] using hfind
          simpa [List.find?, hb] using ih hfind2

/-- C2: while relocating point P, a successful map click moves the
controller from selecting a location back to editing P, and both the dialog
point and the local list carry the clamped click-derived coordinates. -/
theorem relocation_success (s : HomeState) (P : RecyclingPoint) (cx cy rl rt sc : ℚ)
    (hadd : s.isAddingNewPointMode = false)
    (hsel : s.isSelectingLocation = true)
    (hedit : s.editingPointId = some P.id)
    (hfind : findPoint s.allPoints P.id = some P) :
    (handleMapClick s cx cy rl rt sc none true).1.editingPointId = some P.id ∧
    (handleMapClick s cx cy rl rt sc none true).1.isSelectingLocation = false ∧
    (handleMapClick s cx cy rl rt sc none true).1.selectedPoint =
      some { P with x := (mapClickPercent cx cy rl rt sc).1,
                    y := (mapClickPercent cx cy rl rt sc).2 } ∧
    findPoint (handleMapClick s cx cy rl rt sc none true).1.allPoints P.id =
      some { P with x := (mapClickPercent cx cy rl rt sc).1,
                    y := (mapClickPercent cx cy rl rt sc).2 } := by
  unfold handleMapClick
  simp only [hadd, hsel, hedit]
  unfold handlePointCoordinateChange
  simp only [hfind]
  refine ⟨rfl, rfl, rfl, ?_⟩
  exact findPoint_map_update s.allPoints P.id P _ rfl hfind

/-- C2 witness: relocating pt1 by a click at pixel (600, 300) of the
unscaled image yields the percentages (30, 20) on the stored point. -/
theorem relocation_success_witness :
    (handleMapClick sRel 600 300 0 0 1 none true).1.editingPointId = some pt1.id ∧
    (handleMapClick sRel 600 300 0 0 1 none true).1.isSelectingLocation = false ∧
    (handleMapClick sRel 600 300 0 0 1 none true).1.selectedPoint =
      some { pt1 with x := (mapClickPercent 600 300 0 0 1).1,
                      y := (mapClickPercent 600 300 0 0 1).2 } ∧
    findPoint (handleMapClick sRel 600 300 0 0 1 none true).1.allPoints pt1.id =
      some { pt1 with x := (mapClickPercent 600 300 0 0 1).1,
                      y := (mapClickPercent 600 300 0 0 1).2 } :=
  relocation_success sRel pt1 600 300 0 0 1 rfl rfl rfl (by decide)

/-- C3 counterexample: a failed name edit leaves the local state exactly as
it was, so the local point list does not hold the edited value. -/
theorem field_edit_failure_cex :
    (handlePointNameChange sEdit "p1" "Edited Name" false).1 = sEdit ∧
    ((handlePointNameChange sEdit "p1" "Edited Name" false).1.allPoints.filter
      (fun p => p.name == "Edited Name")) = [] := by decide

/-- C3 (amended): a failed name, category or description edit leaves the
controller state entirely unchanged (the edit is applied to the local list
only on success), while a failed coordinate change keeps the list unchanged
and restores the original point data to the dialog. -/
theorem field_edit_failure_rollback (s : HomeState) (pid nn nc nd : String)
    (nx ny : ℚ) (P : RecyclingPoint)
    (hfind : findPoint s.allPoints pid = some P) :
    (handlePointNameChange s pid nn false).1 = s ∧
    (handlePointCategoryChange s pid nc false).1 = s ∧
    (handlePointDescriptionChange s pid nd false).1 = s ∧
    (handlePointCoordinateChange s pid nx ny false).1.selectedPoint = some P ∧
    (handlePointCoordinateChange s pid nx ny false).1.editingPointId = some pid ∧
    (handlePointCoordinateChange s pid nx ny false).1.isSelectingLocation = false ∧
    (handlePointCoordinateChange s pid nx ny false).1.allPoints = s.allPoints := by
  unfold handlePointNameChange handlePointCategoryChange
    handlePointDescriptionChange handlePointCoordinateChange
  simp only [hfind]
  exact ⟨rfl, rfl, rfl, rfl, rfl, rfl, rfl⟩

/-- C3 witness: the amended rollback behavior at the concrete editing state. -/
theorem field_edit_failure_rollback_witness :
    (handlePointNameChange sEdit "p1" "N" false).1 = sEdit ∧
    (handlePointCategoryChange sEdit "p1" "paper" false).1 = sEdit ∧
    (handlePointDescriptionChange sEdit "p1" "D" false).1 = sEdit ∧
    (handlePointCoordinateChange sEdit "p1" 1 2 false).1.selectedPoint = some pt1 ∧
    (handlePointCoordinateChange sEdit "p1" 1 2 false).1.editingPointId = some "p1" ∧
    (handlePointCoordinateChange sEdit "p1" 1 2 false).1.isSelectingLocation = false ∧
    (handlePointCoordinateChange sEdit "p1" 1 2 false).1.allPoints = sEdit.allPoints :=
  field_edit_failure_rollback sEdit "p1" "N" "paper" "D" 1 2 pt1 (by decide)

/-- C4: placing a new point in add-point mode issues exactly one insert with
the default name, the chosen category, the click coordinates and an empty
description, and on success the controller enters Editing on the returned
id with the add-point flags reset. -/
theorem add_point_success (s : HomeState) (c newId : String) (nx ny : ℚ)
    (hadd : s.isAddingNewPointMode = true) (hcat : s.categoryForNewPoint = c)
    (hc : c ≠ "") :
    (handlePlaceNewPoint s nx ny (some newId)).2 =
      [StoreCall.insert "New Recycling Point" c nx ny ""] ∧
    (handlePlaceNewPoint s nx ny (some newId)).1.editingPointId = some newId ∧
    (handlePlaceNewPoint s nx ny (some newId)).1.selectedPoint =
      some { id := newId, name := "New Recycling Point", category := c,
             x := nx, y := ny, description := "" } ∧
    (handlePlaceNewPoint s nx ny (some newId)).1.isAddingNewPointMode = false ∧
    (handlePlaceNewPoint s nx ny (some newId)).1.categoryForNewPoint = "" ∧
    (handlePlaceNewPoint s nx ny (some newId)).1.allPoints =
      s.allPoints ++ [{ id := newId, name := "New Recycling Point", category := c,
                        x := nx, y := ny, description := "" }] := by
  subst hcat
  have hcond : ¬ (s.isAddingNewPointMode = false ∨ s.categoryForNewPoint = "") := by
    rintro (h1 | h2)
    · rw [hadd] at h1; simp at h1
    · exact hc h2
  unfold handlePlaceNewPoint
  rw [if_neg hcond]
  exact ⟨rfl, rfl, rfl, rfl, rfl, rfl⟩

/-- C4 witness: adding a glass point at (30, 40) from the concrete
add-point state. -/
theorem add_point_success_witness :
    (handlePlaceNewPoint sAdd 30 40 (some "n1")).2 =
      [StoreCall.insert "New Recycling Point" "glass" 30 40 ""] ∧
    (handlePlaceNewPoint sAdd 30 40 (some "n1")).1.editingPointId = some "n1" ∧
    (handlePlaceNewPoint sAdd 30 40 (some "n1")).1.selectedPoint =
      some { id := "n1", name := "New Recycling Point", category := "glass",
             x := 30, y := 40, description := "" } ∧
    (handlePlaceNewPoint sAdd 30 40 (some "n1")).1.isAddingNewPointMode = false ∧
    (handlePlaceNewPoint sAdd 30 40 (some "n1")).1.categoryForNewPoint = "" ∧
    (handlePlaceNewPoint sAdd 30 40 (some "n1")).1.allPoints =
      sAdd.allPoints ++ [{ id := "n1", name := "New Recycling Point", category := "glass",
                           x := 30, y := 40, description := "" }] :=
  add_point_success sAdd "glass" "n1" 30 40 rfl rfl (by decide)

/-- C5: the Escape key fires exactly the highest-priority applicable case:
cancel add-point mode, else cancel relocation and restore the dialog to the
edited point, else close a viewing dialog, else do nothing. -/
theorem escape_priority (s : HomeState) :
    (s.isAddingNewPointMode = true →
      handleEscape s = { s with isAddingNewPointMode := false, categoryForNewPoint := "" }) ∧
    (s.isAddingNewPointMode = false → s.isSelectingLocation = true →
      handleEscape s = { s with isSelectingLocation := false,
                                selectedPoint := (match s.editingPointId with
                                  | some eid => findPoint s.allPoints eid
                                  | none => s.selectedPoint) }) ∧
    (s.isAddingNewPointMode = false → s.isSelectingLocation = false →
      s.selectedPoint.isSome = true → s.editingPointId = none →
      handleEscape s = handleCloseDialog s) ∧
    (s.isAddingNewPointMode = false → s.isSelectingLocation = false →
      (s.selectedPoint = none ∨ s.editingPointId ≠ none) →
      handleEscape s = s) := by
  refine ⟨?_, ?_, ?_, ?_⟩
  · intro hA
    unfold handleEscape
    rw [if_pos hA]
  · intro hA hS
    unfold handleEscape
    rw [if_neg (by simp [hA]), if_pos hS]
    cases heid : s.editingPointId <;> rfl
  · intro hA hS hP hE
    unfold handleEscape
    rw [if_neg (by simp [hA]), if_neg (by simp [hS]), if_pos (by simp [hP, hE])]
  · intro hA hS hor
    unfold handleEscape
    rw [if_neg (by simp [hA]), if_neg (by simp [hS])]
    rcases hor with h1 | h2
    · rw [if_neg (by simp [h1])]
    · cases heid : s.editingPointId with
      | none => exact absurd heid h2
      | some eid => rw [if_neg (by simp)]

/-- C5 witness: each Escape case at a concrete state of the right mode. -/
theorem escape_priority_witness :
    handleEscape sAdd = { sAdd with isAddingNewPointMode := false, categoryForNewPoint := "" } ∧
    handleEscape sRel = { sRel with isSelectingLocation := false,
                                    selectedPoint := (match sRel.editingPointId with
                                      | some eid => findPoint sRel.allPoints eid
                                      | none => sRel.selectedPoint) } ∧
    handleEscape sView = handleCloseDialog sView ∧
    handleEscape sEdit = sEdit :=
  ⟨(escape_priority sAdd).1 rfl,
   (escape_priority sRel).2.1 rfl rfl,
   (escape_priority sView).2.2.1 rfl rfl rfl rfl,
   (escape_priority sEdit).2.2.2 rfl rfl (Or.inr (by decide))⟩

/-- The visible-points projection is the plain category filter, in every
state (with no selection the length guard and the filter agree on empty). -/
theorem filteredPoints_filter (s : HomeState) :
    filteredPoints s
      = s.allPoints.filter (fun p => s.selectedCategories.contains p.category) := by
  unfold filteredPoints
  split
  next hlen =>
    have hnil : s.selectedCategories = [] := List.eq_nil_of_length_eq_zero hlen
    rw [hnil]
    symm
    rw [List.filter_eq_nil_iff]
    intro p _
    simp
  next hlen => rfl

/-- Filter toggles never touch the local point list. -/
theorem toggles_allPoints (s : HomeState) (toggles : List (String × Bool)) :
    (toggles.foldl (fun st t => handleCategoryChange st t.1 t.2) s).allPoints
      = s.allPoints := by
  induction toggles generalizing s with
  | nil => rfl
  | cons t ts ih => exact ih (handleCategoryChange s t.1 t.2)

/-- C6: after any sequence of filter toggles the visible points are exactly
the local points whose category id lies in the selected set, and an empty
selected set yields the empty list. -/
theorem filtered_points_projection (s : HomeState) :
    filteredPoints s
      = s.allPoints.filter (fun p => s.selectedCategories.contains p.category) ∧
    (s.selectedCategories = [] → filteredPoints s = []) ∧
    (∀ toggles : List (String × Bool),
      filteredPoints (toggles.foldl (fun st t => handleCategoryChange st t.1 t.2) s)
        = s.allPoints.filter (fun p =>
            (toggles.foldl (fun st t =>
              handleCategoryChange st t.1 t.2) s).selectedCategories.contains p.category)) := by
  refine ⟨filteredPoints_filter s, ?_, ?_⟩
  · intro hnil
    unfold filteredPoints
    rw [if_pos (by rw [hnil]; rfl)]
  · intro toggles
    rw [filteredPoints_filter, toggles_allPoints]

/-- C6 witness: the empty-selection case at a concrete state. -/
theorem filtered_points_projection_witness :
    filteredPoints { sView with selectedCategories := [] } = [] :=
  (filtered_points_projection { sView with selectedCategories := [] }).2.1 rfl

/-- C7: a successful delete issues exactly one store delete, removes the id
from the local list and closes the dialog; a failed delete leaves the whole
controller state unchanged. -/
theorem delete_point_spec (s : HomeState) (pid : String) (P : RecyclingPoint)
    (hfind : findPoint s.allPoints pid = some P) :
    (handleDeletePoint s pid true).2 = [StoreCall.delete pid] ∧
    (handleDeletePoint s pid true).1.allPoints
      = s.allPoints.filter (fun p => p.id != pid) ∧
    (∀ p ∈ (handleDeletePoint s pid true).1.allPoints, p.id ≠ pid) ∧
    (handleDeletePoint s pid true).1.selectedPoint = none ∧
    (handleDeletePoint s pid true).1.editingPointId = none ∧
    (handleDeletePoint s pid true).1.isSelectingLocation = false ∧
    (handleDeletePoint s pid false).1 = s ∧
    (handleDeletePoint s pid false).2 = [StoreCall.delete pid] := by
  unfold handleDeletePoint
  simp only [hfind]
  refine ⟨rfl, rfl, ?_, rfl, rfl, rfl, rfl, rfl⟩
  intro p hp
  have hp2 : p ∈ List.filter (fun q => q.id != pid) s.allPoints := hp
  have hbne := (List.mem_filter.mp hp2).2
  simpa using hbne

/-- C7 witness: deleting pt1 from the concrete editing state. -/
theorem delete_point_spec_witness :
    (handleDeletePoint sEdit "p1" true).2 = [StoreCall.delete "p1"] ∧
    (handleDeletePoint sEdit "p1" true).1.allPoints
      = sEdit.allPoints.filter (fun p => p.id != "p1") ∧
    (∀ p ∈ (handleDeletePoint sEdit "p1" true).1.allPoints, p.id ≠ "p1") ∧
    (handleDeletePoint sEdit "p1" true).1.selectedPoint = none ∧
    (handleDeletePoint sEdit "p1" true).1.editingPointId = none ∧
    (handleDeletePoint sEdit "p1" true).1.isSelectingLocation = false ∧
    (handleDeletePoint sEdit "p1" false).1 = sEdit ∧
    (handleDeletePoint sEdit "p1" false).2 = [StoreCall.delete "p1"] :=
  delete_point_spec sEdit "p1" pt1 (by decide)

/-- C8: the coordinate transform sends the unscaled image center to
(50, 50), the top-left corner to (0, 0), and every click to percentages
clamped into the closed range from 0 to 100. -/
theorem map_click_transform (cx cy rl rt sc : ℚ) :
    mapClickPercent (rl + 1000) (rt + 750) rl rt 1 = (50, 50) ∧
    mapClickPercent rl rt rl rt 1 = (0, 0) ∧
    0 ≤ (mapClickPercent cx cy rl rt sc).1 ∧
    (mapClickPercent cx cy rl rt sc).1 ≤ 100 ∧
    0 ≤ (mapClickPercent cx cy rl rt sc).2 ∧
    (mapClickPercent cx cy rl rt sc).2 ≤ 100 := by
  unfold mapClickPercent imageWidth imageHeight
  refine ⟨?_, ?_, le_max_left 0 _, max_le (by norm_num) (min_le_left _ _),
          le_max_left 0 _, max_le (by norm_num) (min_le_left _ _)⟩
  · have hx : (rl + 1000 - rl) / ((2000:ℚ) * 1) * 100 = 50 := by ring
    have hy : (rt + 750 - rt) / ((1500:ℚ) * 1) * 100 = 50 := by ring
    dsimp only
    rw [hx, hy]
    norm_num [min_def, max_def]
  · have hx : (rl - rl) / ((2000:ℚ) * 1) * 100 = 0 := by ring
    have hy : (rt - rt) / ((1500:ℚ) * 1) * 100 = 0 := by ring
    dsimp only
    rw [hx, hy]
    norm_num [min_def, max_def]

/-- C9: every per-point mutation handler invoked with an id absent from the
local list issues no store call and leaves the controller state unchanged. -/
theorem absent_id_frame (s : HomeState) (pid nn nc nd : String) (nx ny : ℚ) (ok : Bool)
    (habs : ∀ p ∈ s.allPoints, p.id ≠ pid) :
    handlePointCoordinateChange s pid nx ny ok = (s, []) ∧
    handlePointCategoryChange s pid nc ok = (s, []) ∧
    handlePointNameChange s pid nn ok = (s, []) ∧
    handlePointDescriptionChange s pid nd ok = (s, []) ∧
    handleDeletePoint s pid ok = (s, []) := by
  have hf : findPoint s.allPoints pid = none := by
    unfold findPoint
    rw [List.find?_eq_none]
    intro p hp
    simp [habs p hp]
  unfold handlePointCoordinateChange handlePointCategoryChange handlePointNameChange
    handlePointDescriptionChange handleDeletePoint
  rw [hf]
  exact ⟨rfl, rfl, rfl, rfl, rfl⟩

/-- C9 witness: an unknown id at the concrete editing state. -/
theorem absent_id_frame_witness :
    handlePointCoordinateChange sEdit "zz" 1 2 true = (sEdit, []) ∧
    handlePointCategoryChange sEdit "zz" "paper" true = (sEdit, []) ∧
    handlePointNameChange sEdit "zz" "N" true = (sEdit, []) ∧
    handlePointDescriptionChange sEdit "zz" "D" true = (sEdit, []) ∧
    handleDeletePoint sEdit "zz" true = (sEdit, []) :=
  absent_id_frame sEdit "zz" "N" "paper" "D" 1 2 true (by decide)

/-- C10: every point returned by a successful fetch comes from one document
normalized with the service defaults: unnamed and uncategorized defaults for
missing or empty strings, zero for non-numeric coordinates, the identity
(and in particular no clamping) for numeric coordinates, and the empty
string for a missing description. -/
theorem fetch_normalization (docs : List FireDoc) (p : RecyclingPoint)
    (hp : p ∈ getRecyclingPointsFromDB docs) :
    ∃ d ∈ docs, p = mapDocToRecyclingPoint d ∧
      ((d.name = none ∨ d.name = some "") → p.name = "Unnamed Point") ∧
      ((d.category = none ∨ d.category = some "") → p.category = "unknown") ∧
      (∀ q : ℚ, d.x = FireValue.num q → p.x = q) ∧
      (∀ q : ℚ, d.y = FireValue.num q → p.y = q) ∧
      ((∀ q : ℚ, d.x ≠ FireValue.num q) → p.x = 0) ∧
      ((∀ q : ℚ, d.y ≠ FireValue.num q) → p.y = 0) ∧
      (d.description = none → p.description = "") := by
  simp only [getRecyclingPointsFromDB] at hp
  rcases List.mem_map.mp hp with ⟨d, hd, hmap⟩
  subst hmap
  refine ⟨d, hd, rfl, ?_, ?_, ?_, ?_, ?_, ?_, ?_⟩
  · rintro (h | h) <;> simp [mapDocToRecyclingPoint, jsStringOr, h]
  · rintro (h | h) <;> simp [mapDocToRecyclingPoint, jsStringOr, h]
  · intro q hq; simp [mapDocToRecyclingPoint, jsNumberOrZero, hq]
  · intro q hq; simp [mapDocToRecyclingPoint, jsNumberOrZero, hq]
  · intro hnq
    cases hx : d.x with
    | num q => exact absurd hx (hnq q)
    | str s2 => simp [mapDocToRecyclingPoint, jsNumberOrZero, hx]
    | missing => simp [mapDocToRecyclingPoint, jsNumberOrZero, hx]
  · intro hnq
    cases hy : d.y with
    | num q => exact absurd hy (hnq q)
    | str s2 => simp [mapDocToRecyclingPoint, jsNumberOrZero, hy]
    | missing => simp [mapDocToRecyclingPoint, jsNumberOrZero, hy]
  · intro h; simp [mapDocToRecyclingPoint, jsStringOr, h]

/-- C10 witness: the all-missing document normalizes to the defaults. -/
theorem fetch_normalization_witness :
    ∃ d ∈ [docEmpty], mapDocToRecyclingPoint docEmpty = mapDocToRecyclingPoint d ∧
      ((d.name = none ∨ d.name = some "") →
        (mapDocToRecyclingPoint docEmpty).name = "Unnamed Point") ∧
      ((d.category = none ∨ d.category = some "") →
        (mapDocToRecyclingPoint docEmpty).category = "unknown") ∧
      (∀ q : ℚ, d.x = FireValue.num q → (mapDocToRecyclingPoint docEmpty).x = q) ∧
      (∀ q : ℚ, d.y = FireValue.num q → (mapDocToRecyclingPoint docEmpty).y = q) ∧
      ((∀ q : ℚ, d.x ≠ FireValue.num q) → (mapDocToRecyclingPoint docEmpty).x = 0) ∧
      ((∀ q : ℚ, d.y ≠ FireValue.num q) → (mapDocToRecyclingPoint docEmpty).y = 0) ∧
      (d.description = none → (mapDocToRecyclingPoint docEmpty).description = "") :=
  fetch_normalization [docEmpty] (mapDocToRecyclingPoint docEmpty)
    (by simp [getRecyclingPointsFromDB])

end RecycleFinder
